import Mathlib

/-!
Verification of the state-projection and notation-synthesis subsystem of the
Annan-Shogi web server (src/server.py), as a shallow embedding in Lean 4.

The rules engine and the AI agent live in sibling repositories and are consumed
only through narrow interfaces; they are represented here by abstract data
(recorded histories, enumerated legal-move lists) and by function parameters
(the effective-type query, the move-application and move-selection calls).
A Python exception raised by a collaborator call is modelled as an Option
returning none.  Everything else is translated directly from server.py.
-/

namespace AnnanWeb

/-- The two sides (annan_shogi Color enum). -/
inductive Color
  | BLACK
  | WHITE
deriving DecidableEq, Repr

/-- The fourteen piece kinds of the engine PieceType enum (the fourteen keys of
the kanji table in server.py). -/
inductive PieceType
  | FU | KY | KE | GI | KI | KA | HI | OU
  | TO | NY | NK | NG | UM | RY
deriving DecidableEq, Repr

/-- The .value string of a PieceType enum member. -/
def PieceType.value : PieceType → String
  | .FU => "FU" | .KY => "KY" | .KE => "KE" | .GI => "GI"
  | .KI => "KI" | .KA => "KA" | .HI => "HI" | .OU => "OU"
  | .TO => "TO" | .NY => "NY" | .NK => "NK" | .NG => "NG"
  | .UM => "UM" | .RY => "RY"

/-- A piece on the board: nominal kind plus owning side. -/
structure Piece where
  piece_type : PieceType
  color : Color
deriving DecidableEq, Repr

/-- A board coordinate.  The spec bounds file to [1,9] and rank to [0,8]
(section 3, Square); Fin 10 covers both components of that value domain. -/
structure Square where
  file : Fin 10
  rank : Fin 10
deriving DecidableEq, Repr

/-- An engine state snapshot as consumed by server.py: the board mapping
(state.board indexing) and the side to move (state.turn). -/
structure GameState where
  board : Square → Option Piece
  turn : Color

/-- A recorded move: either a drop of a held piece kind onto a destination
square (m.is_drop true, m.drop the kind) or a board move with source,
destination and promotion flag. -/
inductive Move
  | drop (dst : Square) (pt : PieceType)
  | board (src : Square) (dst : Square) (promote : Bool)
deriving DecidableEq, Repr

/-- The destination square of a move (m.dst, defined for drops and board
moves alike). -/
def Move.dst : Move → Square
  | .drop d _ => d
  | .board _ d _ => d

/-- The kanji lookup table of server.py (dict from PieceType value strings to
glyphs); every PieceType value is a key, so the lookup is a total function. -/
def PIECE_KANJI : PieceType → String
  | .FU => "歩" | .KY => "香" | .KE => "桂" | .GI => "銀"
  | .KI => "金" | .KA => "角" | .HI => "飛" | .OU => "玉"
  | .TO => "と" | .NY => "杏" | .NK => "圭" | .NG => "全"
  | .UM => "馬" | .RY => "龍"

/-- Full-width digit table; index 0 is an empty placeholder. -/
def ZENKAKU_NUMS : List String :=
  ["", "１", "２", "３", "４", "５", "６", "７", "８", "９"]

/-- Kanji numeral table; index 0 is an empty placeholder. -/
def KANJI_NUMS : List String :=
  ["", "一", "二", "三", "四", "五", "六", "七", "八", "九"]

/-- Indexing into the full-width digit table.  Indices used by server.py stay
within [0,9], where getD agrees with Python list indexing. -/
def zenkaku (n : Nat) : String := ZENKAKU_NUMS.getD n ""

/-- Indexing into the kanji numeral table. -/
def kanjiNum (n : Nat) : String := KANJI_NUMS.getD n ""

/-- The five fixed KIF header lines. -/
def kifHeader : List String :=
  ["# KIF形式棋譜ファイル",
   "手合割：平手",
   "先手：プレイヤー",
   "後手：プレイヤー(またはAI)",
   "手数----指手---------消費時間--"]

/-- Python format spec {:>4}: right-justify a string in a field of the given
width by left-padding with spaces. -/
def rjust (s : String) (w : Nat) : String :=
  String.mk (List.replicate (w - s.length) ' ') ++ s

/-- Python newline.join of a list of strings. -/
def joinLines : List String → String
  | [] => ""
  | [s] => s
  | s :: s2 :: rest => s ++ "\n" ++ joinLines (s2 :: rest)

/-- The per-move turn glyph of server.py line 81. -/
def turnMark (c : Color) : String :=
  if c = Color.BLACK then "☗" else "☖"

/-- One iteration of the loop body of generate_kif_and_log (server.py lines
83 to 105), producing the pair (move_str_kif, move_str_log).  Returns none
exactly when Python would raise: a board move whose source square is empty in
its snapshot. -/
def renderOne (prevDst : Option Square) (m : Move) (state : GameState) :
    Option (String × String) :=
  match m with
  | .drop dst pt =>
    let pcStr := PIECE_KANJI pt
    some (zenkaku dst.file.val ++ kanjiNum dst.rank.val ++ pcStr ++ "打",
          turnMark state.turn ++ zenkaku dst.file.val ++ kanjiNum dst.rank.val
            ++ pcStr ++ "打")
  | .board src dst promote =>
    match state.board src with
    | none => none
    | some pc =>
      let pcStr := PIECE_KANJI pc.piece_type
      let promoteStr := if promote then "成" else ""
      let dstStr :=
        match prevDst with
        | some p =>
          if p = dst then "同　"
          else zenkaku dst.file.val ++ kanjiNum dst.rank.val
        | none => zenkaku dst.file.val ++ kanjiNum dst.rank.val
      some (dstStr ++ pcStr ++ promoteStr ++ "(" ++ Nat.repr src.file.val
              ++ Nat.repr src.rank.val ++ ")",
            turnMark state.turn ++ zenkaku dst.file.val ++ kanjiNum dst.rank.val
              ++ pcStr ++ promoteStr ++ "(" ++ Nat.repr src.file.val
              ++ Nat.repr src.rank.val ++ ")")

/-- The loop of generate_kif_and_log over the zipped move/snapshot history
(the engine invariant guarantees the two history lists run in parallel).
The argument i is the 0-based index of the first remaining entry; prevDst is
the previous-destination cursor.  Returns (log_arr, kif move lines). -/
def genMovesLines (prevDst : Option Square) (i : Nat) :
    List (Move × GameState) → Option (List String × List String)
  | [] => some ([], [])
  | (m, st) :: rest =>
    match renderOne prevDst m st with
    | none => none
    | some (kifMove, logMove) =>
      match genMovesLines (some m.dst) (i + 1) rest with
      | none => none
      | some (logs, kifs) =>
        some (logMove :: logs,
              (rjust (Nat.repr (i + 1)) 4 ++ " " ++ kifMove) :: kifs)

/-- generate_kif_and_log (server.py lines 66 to 110): from the recorded
history produce the log array and the KIF transcript (header lines plus one
numbered line per move, joined by newlines). -/
def generate_kif_and_log (hist : List (Move × GameState)) :
    Option (List String × String) :=
  match genMovesLines none 0 hist with
  | none => none
  | some (logs, kifs) => some (logs, joinLines (kifHeader ++ kifs))

/-- The previous-destination cursor value in force when the loop reaches index
j, given initial cursor p: p itself at index 0, and the destination of the
preceding recorded move afterwards (server.py sets prev_dst after drops and
board moves alike). -/
def prevDstAt (p : Option Square) (hist : List (Move × GameState)) :
    Nat → Option Square
  | 0 => p
  | k + 1 =>
    match hist[k]? with
    | some e => some e.1.dst
    | none => none

/-- The same-square condition for the move at index i of a history: i has a
predecessor and that predecessor landed on the given destination. -/
def sameAsPrev (hist : List (Move × GameState)) (i : Nat) (dst : Square) :
    Bool :=
  match i with
  | 0 => false
  | k + 1 =>
    match hist[k]? with
    | some e => decide (e.1.dst = dst)
    | none => false

example : zenkaku 7 = "７" := rfl
example : kanjiNum 6 = "六" := rfl
example : rjust (Nat.repr 1) 4 = "   1" := by decide
example : generate_kif_and_log [] = some ([], joinLines kifHeader) := rfl

/-! Structural lemmas about the notation loop. -/

theorem genMovesLines_length (hist : List (Move × GameState)) :
    ∀ p i logs kifs, genMovesLines p i hist = some (logs, kifs) →
      logs.length = hist.length ∧ kifs.length = hist.length := by
  induction hist with
  | nil =>
    intro p i logs kifs h
    simp [genMovesLines] at h
    obtain ⟨h1, h2⟩ := h
    subst h1
    subst h2
    simp
  | cons e rest ih =>
    intro p i logs kifs h
    obtain ⟨m, st⟩ := e
    simp only [genMovesLines] at h
    rcases hr : renderOne p m st with _ | ⟨km, lm⟩ <;> rw [hr] at h
    · simp at h
    rcases hg : genMovesLines (some m.dst) (i + 1) rest with _ | ⟨logs2, kifs2⟩ <;>
      rw [hg] at h
    · simp at h
    simp only [Option.some.injEq, Prod.mk.injEq] at h
    obtain ⟨h1, h2⟩ := h
    have := ih (some m.dst) (i + 1) logs2 kifs2 hg
    simp [h1.symm, h2.symm, this.1, this.2]

theorem prevDstAt_cons (p : Option Square) (m : Move) (st : GameState)
    (rest : List (Move × GameState)) (k : Nat) :
    prevDstAt p ((m, st) :: rest) (k + 1) = prevDstAt (some m.dst) rest k := by
  cases k with
  | zero => simp [prevDstAt]
  | succ k2 => simp [prevDstAt]

/-- The entry of the generated output at index j comes from renderOne applied
to the recorded pair at index j, with the previous-destination cursor holding
the destination of the recorded move at index j-1 and the move number being
the running index plus one. -/
theorem genMovesLines_get (hist : List (Move × GameState)) :
    ∀ p i logs kifs, genMovesLines p i hist = some (logs, kifs) →
      ∀ j e, hist[j]? = some e →
        ∃ km lm, renderOne (prevDstAt p hist j) e.1 e.2 = some (km, lm) ∧
          kifs[j]? = some (rjust (Nat.repr (i + j + 1)) 4 ++ " " ++ km) ∧
          logs[j]? = some lm := by
  induction hist with
  | nil =>
    intro p i logs kifs h j e he
    simp at he
  | cons hd rest ih =>
    intro p i logs kifs h j e he
    obtain ⟨m, st⟩ := hd
    simp only [genMovesLines] at h
    rcases hr : renderOne p m st with _ | ⟨km, lm⟩ <;> rw [hr] at h
    · simp at h
    rcases hg : genMovesLines (some m.dst) (i + 1) rest with _ | ⟨logs2, kifs2⟩ <;>
      rw [hg] at h
    · simp at h
    simp only [Option.some.injEq, Prod.mk.injEq] at h
    obtain ⟨h1, h2⟩ := h
    cases j with
    | zero =>
      simp only [List.getElem?_cons_zero, Option.some.injEq] at he
      subst he
      refine ⟨km, lm, ?_, ?_, ?_⟩
      · simpa [prevDstAt] using hr
      · simp [h2.symm]
      · simp [h1.symm]
    | succ k =>
      simp only [List.getElem?_cons_succ] at he
      obtain ⟨km2, lm2, hrr, hk, hl⟩ :=
        ih (some m.dst) (i + 1) logs2 kifs2 hg k e he
      refine ⟨km2, lm2, ?_, ?_, ?_⟩
      · rw [prevDstAt_cons]
        exact hrr
      · rw [h2.symm]
        simp only [List.getElem?_cons_succ]
        have harith : i + 1 + k + 1 = i + (k + 1) + 1 := by omega
        rw [harith] at hk
        exact hk
      · rw [h1.symm]
        simpa using hl

/-! Character-level facts used to count transcript lines and to locate the
parenthesized source suffix: decimal representations of naturals consist of
digit characters only, and none of the glyph tables contains a newline or a
parenthesis. -/

/-- The characters Nat.digitChar can produce: its sixteen digit values plus
the fallback star. -/
def DIGITCHARS : List Char :=
  (List.range 16).map Nat.digitChar ++ ['*']

theorem digitChar_mem (n : Nat) : Nat.digitChar n ∈ DIGITCHARS := by
  rcases n with _|_|_|_|_|_|_|_|_|_|_|_|_|_|_|_|m
  case succ =>
    unfold Nat.digitChar
    repeat rw [if_neg (by omega)]
    decide
  all_goals decide

theorem toDigitsCore_subset (fuel : Nat) :
    ∀ n ds, (∀ c ∈ ds, c ∈ DIGITCHARS) →
      ∀ c ∈ Nat.toDigitsCore 10 fuel n ds, c ∈ DIGITCHARS := by
  induction fuel with
  | zero =>
    intro n ds hds c hc
    exact hds c hc
  | succ fuel ih =>
    intro n ds hds c hc
    simp only [Nat.toDigitsCore] at hc
    split at hc
    · rcases List.mem_cons.mp hc with h | h
      · rw [h]
        exact digitChar_mem _
      · exact hds c h
    · refine ih (n / 10) (Nat.digitChar (n % 10) :: ds) ?_ c hc
      intro c2 hc2
      rcases List.mem_cons.mp hc2 with h | h
      · rw [h]
        exact digitChar_mem _
      · exact hds c2 h

theorem repr_subset (n : Nat) : ∀ c ∈ (Nat.repr n).data, c ∈ DIGITCHARS := by
  intro c hc
  have : (Nat.repr n).data = Nat.toDigitsCore 10 (n + 1) n [] := rfl
  rw [this] at hc
  exact toDigitsCore_subset (n + 1) n [] (by simp) c hc

theorem not_mem_repr (n : Nat) (c : Char) (hc : c ∉ DIGITCHARS) :
    c ∉ (Nat.repr n).data :=
  fun h => hc (repr_subset n c h)

theorem zenkaku_mem (n : Nat) : zenkaku n ∈ ZENKAKU_NUMS := by
  unfold zenkaku
  rcases h : ZENKAKU_NUMS[n]? with _ | s
  · rw [List.getD_eq_getElem?_getD, h]
    decide
  · rw [List.getD_eq_getElem?_getD, h]
    exact List.getElem?_mem h

theorem kanjiNum_mem (n : Nat) : kanjiNum n ∈ KANJI_NUMS := by
  unfold kanjiNum
  rcases h : KANJI_NUMS[n]? with _ | s
  · rw [List.getD_eq_getElem?_getD, h]
    decide
  · rw [List.getD_eq_getElem?_getD, h]
    exact List.getElem?_mem h

/-- The characters that never occur in any glyph produced by the tables: the
newline separating transcript lines and the two parentheses delimiting the
source-coordinate suffix. -/
def SPECIALS : List Char := ['\n', '(', ')']

theorem zenkaku_no_special (n : Nat) :
    ∀ c ∈ SPECIALS, c ∉ (zenkaku n).data := by
  have h := zenkaku_mem n
  simp only [ZENKAKU_NUMS, List.mem_cons, List.not_mem_nil, or_false] at h
  rcases h with h|h|h|h|h|h|h|h|h|h <;> rw [h] <;> decide

theorem kanjiNum_no_special (n : Nat) :
    ∀ c ∈ SPECIALS, c ∉ (kanjiNum n).data := by
  have h := kanjiNum_mem n
  simp only [KANJI_NUMS, List.mem_cons, List.not_mem_nil, or_false] at h
  rcases h with h|h|h|h|h|h|h|h|h|h <;> rw [h] <;> decide

theorem pieceKanji_no_special (pt : PieceType) :
    ∀ c ∈ SPECIALS, c ∉ (PIECE_KANJI pt).data := by
  cases pt <;> decide

theorem turnMark_no_special (c0 : Color) :
    ∀ c ∈ SPECIALS, c ∉ (turnMark c0).data := by
  cases c0 <;> decide

theorem repr_no_special (n : Nat) : ∀ c ∈ SPECIALS, c ∉ (Nat.repr n).data := by
  intro c hc
  refine not_mem_repr n c ?_
  fin_cases hc <;> decide

theorem rjust_no_special (s : String) (w : Nat) :
    ∀ c ∈ SPECIALS, c ∉ s.data → c ∉ (rjust s w).data := by
  intro c hc hs
  unfold rjust
  rw [String.data_append]
  intro hmem
  rcases List.mem_append.mp hmem with h | h
  · have : c = ' ' := by
      simpa using List.eq_of_mem_replicate h
    rw [this] at hc
    revert hc
    decide
  · exact hs h

theorem not_mem_append_str {c : Char} {a b : String} (ha : c ∉ a.data)
    (hb : c ∉ b.data) : c ∉ (a ++ b).data := by
  rw [String.data_append]
  simp [List.mem_append, ha, hb]

/-- Neither produced string of one loop iteration contains a newline. -/
theorem renderOne_no_nl (p : Option Square) (m : Move) (st : GameState)
    (km lm : String) (h : renderOne p m st = some (km, lm)) :
    '\n' ∉ km.data ∧ '\n' ∉ lm.data := by
  have hz : ∀ n, '\n' ∉ (zenkaku n).data :=
    fun n => zenkaku_no_special n '\n' (by decide)
  have hk : ∀ n, '\n' ∉ (kanjiNum n).data :=
    fun n => kanjiNum_no_special n '\n' (by decide)
  have hp : ∀ pt, '\n' ∉ (PIECE_KANJI pt).data :=
    fun pt => pieceKanji_no_special pt '\n' (by decide)
  have ht : ∀ c0, '\n' ∉ (turnMark c0).data :=
    fun c0 => turnMark_no_special c0 '\n' (by decide)
  have hrp : ∀ n, '\n' ∉ (Nat.repr n).data :=
    fun n => repr_no_special n '\n' (by decide)
  cases m with
  | drop dst pt =>
    simp only [renderOne, Option.some.injEq, Prod.mk.injEq] at h
    obtain ⟨h1, h2⟩ := h
    subst h1
    subst h2
    constructor
    · exact not_mem_append_str (not_mem_append_str (not_mem_append_str
        (hz _) (hk _)) (hp _)) (by decide)
    · exact not_mem_append_str (not_mem_append_str (not_mem_append_str
        (not_mem_append_str (ht _) (hz _)) (hk _)) (hp _)) (by decide)
  | board src dst promote =>
    simp only [renderOne] at h
    rcases hb : st.board src with _ | pc <;> rw [hb] at h
    · simp at h
    simp only [Option.some.injEq, Prod.mk.injEq] at h
    obtain ⟨h1, h2⟩ := h
    subst h1
    subst h2
    have hd : '\n' ∉ (match p with
        | some q =>
          if q = dst then "同　"
          else zenkaku dst.file.val ++ kanjiNum dst.rank.val
        | none => zenkaku dst.file.val ++ kanjiNum dst.rank.val).data := by
      rcases p with _ | q
      · exact not_mem_append_str (hz _) (hk _)
      · by_cases hq : q = dst
        · simp [hq]
        · simp only [if_neg hq]
          exact not_mem_append_str (hz _) (hk _)
    have hps : '\n' ∉ (if promote then "成" else "").data := by
      cases promote <;> decide
    constructor
    · exact not_mem_append_str (not_mem_append_str (not_mem_append_str
        (not_mem_append_str (not_mem_append_str (not_mem_append_str hd (hp _))
          hps) (by decide)) (hrp _)) (hrp _)) (by decide)
    · exact not_mem_append_str (not_mem_append_str (not_mem_append_str
        (not_mem_append_str (not_mem_append_str (not_mem_append_str
        (not_mem_append_str (not_mem_append_str (ht _) (hz _)) (hk _)) (hp _))
          hps) (by decide)) (hrp _)) (hrp _)) (by decide)

/-- No generated log line or KIF move line contains a newline. -/
theorem genMovesLines_no_nl (hist : List (Move × GameState)) :
    ∀ p i logs kifs, genMovesLines p i hist = some (logs, kifs) →
      (∀ s ∈ logs, '\n' ∉ s.data) ∧ (∀ s ∈ kifs, '\n' ∉ s.data) := by
  induction hist with
  | nil =>
    intro p i logs kifs h
    simp [genMovesLines] at h
    obtain ⟨h1, h2⟩ := h
    subst h1
    subst h2
    simp
  | cons hd rest ih =>
    intro p i logs kifs h
    obtain ⟨m, st⟩ := hd
    simp only [genMovesLines] at h
    rcases hr : renderOne p m st with _ | ⟨km, lm⟩ <;> rw [hr] at h
    · simp at h
    rcases hg : genMovesLines (some m.dst) (i + 1) rest with _ | ⟨logs2, kifs2⟩ <;>
      rw [hg] at h
    · simp at h
    simp only [Option.some.injEq, Prod.mk.injEq] at h
    obtain ⟨h1, h2⟩ := h
    subst h1
    subst h2
    obtain ⟨hkm, hlm⟩ := renderOne_no_nl p m st km lm hr
    obtain ⟨ihl, ihk⟩ := ih (some m.dst) (i + 1) logs2 kifs2 hg
    constructor
    · intro s hs
      rcases List.mem_cons.mp hs with h | h
      · rw [h]
        exact hlm
      · exact ihl s h
    · intro s hs
      rcases List.mem_cons.mp hs with h | h
      · rw [h]
        refine not_mem_append_str (not_mem_append_str ?_ (by decide)) hkm
        exact rjust_no_special _ 4 '\n' (by decide)
          (repr_no_special _ '\n' (by decide))
      · exact ihk s h

/-- The number of lines of a rendered text: one more than the number of
newline separators (the transcript never ends in a newline). -/
def lineCount (s : String) : Nat := s.data.count '\n' + 1

theorem joinLines_lineCount (L : List String) :
    L ≠ [] → (∀ s ∈ L, '\n' ∉ s.data) → lineCount (joinLines L) = L.length := by
  induction L with
  | nil => intro h; exact absurd rfl h
  | cons s rest ih =>
    intro _ hnl
    cases rest with
    | nil =>
      simp only [joinLines, lineCount, List.length_cons, List.length_nil]
      rw [List.count_eq_zero_of_not_mem (hnl s (by simp))]
    | cons s2 rest2 =>
      have hstep : joinLines (s :: s2 :: rest2) =
          s ++ "\n" ++ joinLines (s2 :: rest2) := rfl
      have hrec := ih (by simp) (fun t ht => hnl t (List.mem_cons_of_mem s ht))
      simp only [lineCount] at hrec ⊢
      rw [hstep, String.data_append, String.data_append, List.count_append,
        List.count_append, List.count_eq_zero_of_not_mem (hnl s (by simp))]
      have : List.count '\n' "\n".data = 1 := by decide
      rw [this]
      simp only [List.length_cons] at hrec ⊢
      omega

/-- C2: the transcript string always has exactly five header lines plus one
line per recorded move, and the log array has one entry per recorded move;
for the empty history the transcript is exactly the joined header. -/
theorem kif_transcript_shape (hist : List (Move × GameState))
    (logs : List String) (kif : String)
    (h : generate_kif_and_log hist = some (logs, kif)) :
    logs.length = hist.length ∧ lineCount kif = hist.length + 5 ∧
      (hist = [] → logs = [] ∧ kif = joinLines kifHeader) := by
  unfold generate_kif_and_log at h
  rcases hg : genMovesLines none 0 hist with _ | ⟨logs0, kifs0⟩ <;> rw [hg] at h
  · simp at h
  simp only [Option.some.injEq, Prod.mk.injEq] at h
  obtain ⟨h1, h2⟩ := h
  subst h1
  subst h2
  obtain ⟨hlen1, hlen2⟩ := genMovesLines_length hist none 0 logs0 kifs0 hg
  refine ⟨hlen1, ?_, ?_⟩
  · have hall : ∀ s ∈ kifHeader ++ kifs0, '\n' ∉ s.data := by
      intro s hs
      rcases List.mem_append.mp hs with h | h
      · revert h
        have hh : ∀ s ∈ kifHeader, '\n' ∉ s.data := by decide
        exact fun h => hh s h
      · exact (genMovesLines_no_nl hist none 0 logs0 kifs0 hg).2 s h
    rw [joinLines_lineCount (kifHeader ++ kifs0) (by simp [kifHeader]) hall]
    simp only [List.length_append, hlen2, kifHeader, List.length_cons,
      List.length_nil]
    omega
  · intro he
    subst he
    simp [genMovesLines] at hg
    obtain ⟨hg1, hg2⟩ := hg
    subst hg1
    subst hg2
    simp

/-! A concrete two-move history used to instantiate the theorems: a pawn
advance by Black followed by a White recapture-style move onto the same
destination square. -/

/-- Snapshot before the first move: a Black pawn on (7,7), Black to move. -/
def stateW1 : GameState :=
  ⟨fun sq => if sq = Square.mk 7 7 then some ⟨PieceType.FU, Color.BLACK⟩
             else none,
   Color.BLACK⟩

/-- Snapshot before the second move: a White silver on (8,6), White to move. -/
def stateW2 : GameState :=
  ⟨fun sq => if sq = Square.mk 8 6 then some ⟨PieceType.GI, Color.WHITE⟩
             else none,
   Color.WHITE⟩

/-- The concrete history: (7,7) to (7,6), then (8,6) to (7,6). -/
def histW : List (Move × GameState) :=
  [(Move.board (Square.mk 7 7) (Square.mk 7 6) false, stateW1),
   (Move.board (Square.mk 8 6) (Square.mk 7 6) false, stateW2)]

/-- The log array the server computes for histW. -/
def logsW : List String := ["☗７六歩(77)", "☖７六銀(86)"]

/-- The KIF move lines the server computes for histW. -/
def kifsW : List String := ["   1 ７六歩(77)", "   2 同　銀(86)"]

/-- The full KIF transcript for histW. -/
def kifStrW : String := joinLines (kifHeader ++ kifsW)

example : genMovesLines none 0 histW = some (logsW, kifsW) := by decide
example : generate_kif_and_log histW = some (logsW, kifStrW) := by decide

theorem str_append_assoc (a b c : String) : a ++ b ++ c = a ++ (b ++ c) :=
  String.ext (by simp [String.data_append, List.append_assoc])

/-- The destination component selected by the loop for the move at index i
equals the same-square token exactly under the sameAsPrev condition (the
initial cursor being empty). -/
theorem dstStr_eq (hist : List (Move × GameState)) (i : Nat) (dst : Square) :
    (match prevDstAt none hist i with
     | some p =>
       if p = dst then "同　"
       else zenkaku dst.file.val ++ kanjiNum dst.rank.val
     | none => zenkaku dst.file.val ++ kanjiNum dst.rank.val) =
    (if sameAsPrev hist i dst then "同　"
     else zenkaku dst.file.val ++ kanjiNum dst.rank.val) := by
  cases i with
  | zero => simp [prevDstAt, sameAsPrev]
  | succ k =>
    rcases hke : hist[k]? with _ | e2
    · simp [prevDstAt, sameAsPrev, hke]
    · simp only [prevDstAt, sameAsPrev, hke]
      by_cases h2 : e2.1.dst = dst <;> simp [h2]

/-- C1: the formal rendering of the move at index i uses the same-square
token in place of explicit destination coordinates exactly when the move is a
board move whose destination equals the destination of the move at index i-1
(whatever kind of move, by whichever side, that predecessor was); drops and
all other board moves render explicit destination coordinates. -/
theorem same_square_compression (hist : List (Move × GameState))
    (logs kifs : List String)
    (hgen : genMovesLines none 0 hist = some (logs, kifs))
    (i : Nat) (e : Move × GameState) (he : hist[i]? = some e) :
    (∀ dst pt, e.1 = Move.drop dst pt →
      kifs[i]? = some (rjust (Nat.repr (i + 1)) 4 ++ " " ++
        (zenkaku dst.file.val ++ kanjiNum dst.rank.val ++ PIECE_KANJI pt
          ++ "打"))) ∧
    (∀ src dst pr, e.1 = Move.board src dst pr →
      ∀ pc, e.2.board src = some pc →
        kifs[i]? = some (rjust (Nat.repr (i + 1)) 4 ++ " " ++
          ((if sameAsPrev hist i dst then "同　"
            else zenkaku dst.file.val ++ kanjiNum dst.rank.val)
            ++ PIECE_KANJI pc.piece_type ++ (if pr then "成" else "")
            ++ "(" ++ Nat.repr src.file.val ++ Nat.repr src.rank.val
            ++ ")"))) := by
  obtain ⟨m, st⟩ := e
  obtain ⟨km, lm, hro, hk, hl⟩ :=
    genMovesLines_get hist none 0 logs kifs hgen i (m, st) he
  simp only [Nat.zero_add] at hk
  constructor
  · intro dst pt hdrop
    simp only at hdrop
    subst hdrop
    simp only [renderOne, Option.some.injEq, Prod.mk.injEq] at hro
    rw [hk, hro.1]
  · intro src dst pr hbd pc hpc
    simp only at hbd hpc
    subst hbd
    simp only [renderOne] at hro
    rw [hpc] at hro
    simp only [Option.some.injEq, Prod.mk.injEq] at hro
    rw [hk, ← hro.1, dstStr_eq hist i dst]

/-- C3: the notation for move i is derived from snapshot i, the recorded
state before the move: the log entry is prefixed with the glyph of the side
to move in that snapshot, and for a board move the rendered piece glyph is
looked up on that snapshot board at the source square. -/
theorem notation_from_snapshot (hist : List (Move × GameState))
    (logs : List String) (kif : String)
    (hgen : generate_kif_and_log hist = some (logs, kif))
    (i : Nat) (e : Move × GameState) (he : hist[i]? = some e) :
    (∃ rest, logs[i]? = some (turnMark e.2.turn ++ rest)) ∧
    (∀ src dst pr, e.1 = Move.board src dst pr →
      ∀ pc, e.2.board src = some pc →
        logs[i]? = some (turnMark e.2.turn ++ zenkaku dst.file.val
          ++ kanjiNum dst.rank.val ++ PIECE_KANJI pc.piece_type
          ++ (if pr then "成" else "") ++ "(" ++ Nat.repr src.file.val
          ++ Nat.repr src.rank.val ++ ")")) := by
  unfold generate_kif_and_log at hgen
  rcases hg : genMovesLines none 0 hist with _ | ⟨logs0, kifs0⟩ <;>
    rw [hg] at hgen
  · simp at hgen
  simp only [Option.some.injEq, Prod.mk.injEq] at hgen
  obtain ⟨h1, _⟩ := hgen
  subst h1
  obtain ⟨m, st⟩ := e
  obtain ⟨km, lm, hro, hk, hl⟩ :=
    genMovesLines_get hist none 0 logs0 kifs0 hg i (m, st) he
  constructor
  · cases m with
    | drop dst pt =>
      simp only [renderOne, Option.some.injEq, Prod.mk.injEq] at hro
      refine ⟨zenkaku dst.file.val ++ (kanjiNum dst.rank.val
        ++ (PIECE_KANJI pt ++ "打")), ?_⟩
      rw [hl, ← hro.2]
      simp only [str_append_assoc]
    | board src dst pr =>
      simp only [renderOne] at hro
      rcases hb : st.board src with _ | pc <;> rw [hb] at hro
      · simp at hro
      simp only [Option.some.injEq, Prod.mk.injEq] at hro
      refine ⟨zenkaku dst.file.val ++ (kanjiNum dst.rank.val
        ++ (PIECE_KANJI pc.piece_type ++ ((if pr then "成" else "")
        ++ ("(" ++ (Nat.repr src.file.val ++ (Nat.repr src.rank.val
        ++ ")")))))), ?_⟩
      rw [hl, ← hro.2]
      simp only [str_append_assoc]
  · intro src dst pr hbd pc hpc
    simp only at hbd hpc
    subst hbd
    simp only [renderOne] at hro
    rw [hpc] at hro
    simp only [Option.some.injEq, Prod.mk.injEq] at hro
    rw [hl, ← hro.2]

theorem count_eq_zero_of_no_special {c : Char} {s : String}
    (hc : c ∈ SPECIALS) (h : ∀ c2 ∈ SPECIALS, c2 ∉ s.data) :
    s.data.count c = 0 :=
  List.count_eq_zero_of_not_mem (h c hc)

/-- C5: every formal move rendering decomposes as the right-aligned move
number, a space, and the move string; a drop move string ends in the drop
marker and contains no parenthesis, while a board move string carries exactly
one parenthesized suffix holding the raw decimal source coordinates. -/
theorem move_string_suffix (hist : List (Move × GameState))
    (logs kifs : List String)
    (hgen : genMovesLines none 0 hist = some (logs, kifs))
    (i : Nat) (e : Move × GameState) (he : hist[i]? = some e) :
    ∃ s, kifs[i]? = some (rjust (Nat.repr (i + 1)) 4 ++ " " ++ s) ∧
      (∀ dst pt, e.1 = Move.drop dst pt →
        s.data.getLast? = some '打' ∧ '(' ∉ s.data) ∧
      (∀ src dst pr, e.1 = Move.board src dst pr →
        s.data.count '(' = 1 ∧ s.data.count ')' = 1 ∧
        ∃ pfx, s = pfx ++ "(" ++ Nat.repr src.file.val
            ++ Nat.repr src.rank.val ++ ")" ∧
          '(' ∉ pfx.data ∧ ')' ∉ pfx.data) := by
  obtain ⟨m, st⟩ := e
  obtain ⟨km, lm, hro, hk, hl⟩ :=
    genMovesLines_get hist none 0 logs kifs hgen i (m, st) he
  simp only [Nat.zero_add] at hk
  refine ⟨km, hk, ?_, ?_⟩
  · intro dst pt hdrop
    simp only at hdrop
    subst hdrop
    simp only [renderOne, Option.some.injEq, Prod.mk.injEq] at hro
    rw [← hro.1]
    constructor
    · rw [String.data_append]
      have hda : ("打" : String).data = ['打'] := rfl
      rw [hda]
      exact List.getLast?_concat _
    · refine not_mem_append_str (not_mem_append_str (not_mem_append_str
        (zenkaku_no_special _ '(' (by decide))
        (kanjiNum_no_special _ '(' (by decide)))
        (pieceKanji_no_special _ '(' (by decide))) (by decide)
  · intro src dst pr hbd
    simp only at hbd
    subst hbd
    simp only [renderOne] at hro
    rcases hb : st.board src with _ | pc <;> rw [hb] at hro
    · simp at hro
    simp only [Option.some.injEq, Prod.mk.injEq] at hro
    rw [← hro.1]
    have hdst : ∀ c ∈ SPECIALS, c ∉ ((match prevDstAt none hist i with
        | some p =>
          if p = dst then "同　"
          else zenkaku dst.file.val ++ kanjiNum dst.rank.val
        | none => zenkaku dst.file.val ++ kanjiNum dst.rank.val) :
          String).data := by
      intro c hc
      rcases prevDstAt none hist i with _ | q
      · exact not_mem_append_str (zenkaku_no_special _ c hc)
          (kanjiNum_no_special _ c hc)
      · show c ∉ (if q = dst then "同　"
          else zenkaku dst.file.val ++ kanjiNum dst.rank.val).data
        by_cases hq : q = dst
        · rw [if_pos hq]
          fin_cases hc <;> decide
        · rw [if_neg hq]
          exact not_mem_append_str (zenkaku_no_special _ c hc)
            (kanjiNum_no_special _ c hc)
    have hpromo : ∀ c ∈ SPECIALS,
        c ∉ ((if pr then "成" else "") : String).data := by
      intro c hc
      cases pr <;> fin_cases hc <;> decide
    have hpfx : ∀ c ∈ SPECIALS,
        c ∉ ((match prevDstAt none hist i with
          | some p =>
            if p = dst then "同　"
            else zenkaku dst.file.val ++ kanjiNum dst.rank.val
          | none => zenkaku dst.file.val ++ kanjiNum dst.rank.val)
          ++ PIECE_KANJI pc.piece_type
          ++ (if pr then "成" else "") : String).data := by
      intro c hc
      exact not_mem_append_str (not_mem_append_str (hdst c hc)
        (pieceKanji_no_special _ c hc)) (hpromo c hc)
    refine ⟨?_, ?_, ?_⟩
    · simp only [String.data_append, List.count_append]
      rw [List.count_eq_zero_of_not_mem (hdst '(' (by decide)),
        List.count_eq_zero_of_not_mem
          (pieceKanji_no_special pc.piece_type '(' (by decide)),
        List.count_eq_zero_of_not_mem (hpromo '(' (by decide)),
        List.count_eq_zero_of_not_mem (not_mem_repr src.file.val '('
          (by decide)),
        List.count_eq_zero_of_not_mem (not_mem_repr src.rank.val '('
          (by decide))]
      decide
    · simp only [String.data_append, List.count_append]
      rw [List.count_eq_zero_of_not_mem (hdst ')' (by decide)),
        List.count_eq_zero_of_not_mem
          (pieceKanji_no_special pc.piece_type ')' (by decide)),
        List.count_eq_zero_of_not_mem (hpromo ')' (by decide)),
        List.count_eq_zero_of_not_mem (not_mem_repr src.file.val ')'
          (by decide)),
        List.count_eq_zero_of_not_mem (not_mem_repr src.rank.val ')'
          (by decide))]
      decide
    · exact ⟨_, rfl, hpfx '(' (by decide), hpfx ')' (by decide)⟩

theorem same_square_compression_witness :
    kifsW[1]? = some "   2 同　銀(86)" :=
  (same_square_compression histW logsW kifsW (by decide) 1
      (Move.board (Square.mk 8 6) (Square.mk 7 6) false, stateW2)
      rfl).2
    (Square.mk 8 6) (Square.mk 7 6) false rfl
    ⟨PieceType.GI, Color.WHITE⟩ rfl

theorem kif_transcript_shape_witness :
    (logsW.length = histW.length ∧ lineCount kifStrW = histW.length + 5 ∧
      (histW = [] → logsW = [] ∧ kifStrW = joinLines kifHeader)) ∧
    lineCount (joinLines kifHeader) = 5 :=
  ⟨kif_transcript_shape histW logsW kifStrW (by decide),
   (kif_transcript_shape [] [] (joinLines kifHeader) (by decide)).2.1⟩

theorem notation_from_snapshot_witness :
    logsW[1]? = some "☖７六銀(86)" :=
  (notation_from_snapshot histW logsW kifStrW (by decide) 1
      (Move.board (Square.mk 8 6) (Square.mk 7 6) false, stateW2)
      rfl).2
    (Square.mk 8 6) (Square.mk 7 6) false rfl
    ⟨PieceType.GI, Color.WHITE⟩ rfl

theorem move_string_suffix_witness :
    ∃ s, kifsW[1]? = some (rjust (Nat.repr (1 + 1)) 4 ++ " " ++ s) ∧
      (∀ dst pt, (Move.board (Square.mk 8 6) (Square.mk 7 6) false,
          stateW2).1 = Move.drop dst pt →
        s.data.getLast? = some '打' ∧ '(' ∉ s.data) ∧
      (∀ src dst pr, (Move.board (Square.mk 8 6) (Square.mk 7 6) false,
          stateW2).1 = Move.board src dst pr →
        s.data.count '(' = 1 ∧ s.data.count ')' = 1 ∧
        ∃ pfx, s = pfx ++ "(" ++ Nat.repr src.file.val
            ++ Nat.repr src.rank.val ++ ")" ∧
          '(' ∉ pfx.data ∧ ')' ∉ pfx.data) :=
  move_string_suffix histW logsW kifsW (by decide) 1
    (Move.board (Square.mk 8 6) (Square.mk 7 6) false, stateW2) rfl

/-! State projection (game_state_to_json, server.py lines 113 to 179). -/

/-- One cell of the board projection grid (the per-piece JSON dict). -/
structure BoardCell where
  type : String
  kanji : String
  color : String
deriving DecidableEq, Repr

/-- One cell of the annan override grid (the effective-type JSON dict). -/
structure AnnanCell where
  effective_type : String
  effective_kanji : String
deriving DecidableEq, Repr

/-- The rules-engine effective-type query (get_effective_piece_type), an
external collaborator: none models a raised exception or an inapplicable
square, which server.py swallows. -/
abbrev EffQuery := (Square → Option Piece) → Square → Color → Option PieceType

/-- The board projection cell for an occupied square. -/
def boardCellJson (p : Piece) : BoardCell :=
  { type := p.piece_type.value,
    kanji := PIECE_KANJI p.piece_type,
    color := if p.color = Color.BLACK then "BLACK" else "WHITE" }

/-- The annan override cell for one square (server.py lines 134 to 148):
empty if the square is empty, holds the royal piece, the query fails, or the
effective kind equals the nominal kind; otherwise the effective kind and its
glyph. -/
def annanCell (effQ : EffQuery) (board : Square → Option Piece)
    (sq : Square) : Option AnnanCell :=
  match board sq with
  | none => none
  | some piece =>
    if piece.piece_type = PieceType.OU then none
    else
      match effQ board sq piece.color with
      | none => none
      | some eff =>
        if eff = piece.piece_type then none
        else some { effective_type := eff.value,
                    effective_kanji := PIECE_KANJI eff }

/-- The rank traversal order of the projection loops (range(9)). -/
def ranksAsc : List (Fin 10) := [0, 1, 2, 3, 4, 5, 6, 7, 8]

/-- The file traversal order of the projection loops (range(9, 0, -1)). -/
def filesDesc : List (Fin 10) := [9, 8, 7, 6, 5, 4, 3, 2, 1]

/-- The 9 by 9 board projection grid, rank-major with files descending. -/
def boardGrid (board : Square → Option Piece) :
    List (List (Option BoardCell)) :=
  ranksAsc.map (fun r => filesDesc.map
    (fun f => (board (Square.mk f r)).map boardCellJson))

/-- The 9 by 9 annan override grid, same traversal order. -/
def annanInfoGrid (effQ : EffQuery) (board : Square → Option Piece) :
    List (List (Option AnnanCell)) :=
  ranksAsc.map (fun r => filesDesc.map
    (fun f => annanCell effQ board (Square.mk f r)))

/-- The engine Game object as consumed by the handlers: result.value as a
string, get_legal_moves() as the recorded enumeration, and the two parallel
histories zipped (the engine keeps them the same length). -/
structure Game where
  state : GameState
  result : String
  legalMoves : List Move
  history : List (Move × GameState)

/-- The legal-move token list of the payload (server.py lines 153 to 157):
the serialized engine enumeration while the game is ongoing, empty
otherwise. -/
def legal_moves_payload (toSfen : Move → String) (g : Game) : List String :=
  if g.result = "ONGOING" then g.legalMoves.map toSfen else []

/-- The snapshot payload fields computed in server.py itself.  The remaining
payload fields (turn string, hand dictionaries, in-check flag, ply counter)
are verbatim passthroughs of engine calls and are outside the embedded
computation. -/
structure StateJson where
  board : List (List (Option BoardCell))
  annan_info : List (List (Option AnnanCell))
  legal_moves : List String
  result : String
  ai_enabled : Bool
  ai_color : Option String
  log : List String
  kif : String
deriving DecidableEq, Repr

/-- game_state_to_json: assembles the payload.  It is none exactly when the
transcript generation would raise (see generate_kif_and_log). -/
def game_state_to_json (effQ : EffQuery) (toSfen : Move → String)
    (aiEnabled : Bool) (aiColor : Option String) (g : Game) :
    Option StateJson :=
  match generate_kif_and_log g.history with
  | none => none
  | some (logArr, kifStr) =>
    some { board := boardGrid g.state.board,
           annan_info := annanInfoGrid effQ g.state.board,
           legal_moves := legal_moves_payload toSfen g,
           result := g.result,
           ai_enabled := aiEnabled,
           ai_color := aiColor,
           log := logArr,
           kif := kifStr }

theorem annanCell_isSome (effQ : EffQuery) (board : Square → Option Piece)
    (sq : Square) :
    (annanCell effQ board sq).isSome ↔
      ∃ p, board sq = some p ∧ p.piece_type ≠ PieceType.OU ∧
        ∃ e2, effQ board sq p.color = some e2 ∧ e2 ≠ p.piece_type := by
  unfold annanCell
  rcases hb : board sq with _ | p
  · simp
  · by_cases hou : p.piece_type = PieceType.OU
    · simp [hou]
    · rcases he : effQ board sq p.color with _ | e2
      · simp [hou, he]
      · by_cases heq : e2 = p.piece_type <;> simp [hou, he, heq]

theorem annanCell_none_of_fail (effQ : EffQuery)
    (board : Square → Option Piece) (sq : Square) (p : Piece)
    (hb : board sq = some p) (he : effQ board sq p.color = none) :
    annanCell effQ board sq = none := by
  unfold annanCell
  rw [hb]
  by_cases hou : p.piece_type = PieceType.OU
  · simp [hou]
  · simp [hou, he]

/-- C4: in the assembled payload the annan override grid is the 9 by 9 grid
of per-square cells; a cell is populated exactly when the square holds a
non-royal piece for which the effective-type query succeeds with a kind
different from the nominal kind; a query failure yields an empty cell while
the projection still completes for every square. -/
theorem annan_projection (effQ : EffQuery) (toSfen : Move → String)
    (aiE : Bool) (aiC : Option String) (g : Game) (sj : StateJson)
    (h : game_state_to_json effQ toSfen aiE aiC g = some sj) :
    (sj.annan_info.length = 9 ∧ ∀ row ∈ sj.annan_info, row.length = 9) ∧
    (∀ (ri fi : Nat) (r f : Fin 10) (row : List (Option AnnanCell))
        (cell : Option AnnanCell),
      ranksAsc[ri]? = some r → filesDesc[fi]? = some f →
      sj.annan_info[ri]? = some row → row[fi]? = some cell →
        cell = annanCell effQ g.state.board (Square.mk f r)) ∧
    (∀ sq, (annanCell effQ g.state.board sq).isSome ↔
      ∃ p, g.state.board sq = some p ∧ p.piece_type ≠ PieceType.OU ∧
        ∃ e2, effQ g.state.board sq p.color = some e2 ∧
          e2 ≠ p.piece_type) ∧
    (∀ sq p, g.state.board sq = some p →
      effQ g.state.board sq p.color = none →
        annanCell effQ g.state.board sq = none) := by
  have hai : sj.annan_info = annanInfoGrid effQ g.state.board := by
    unfold game_state_to_json at h
    rcases hg : generate_kif_and_log g.history with _ | lk <;> rw [hg] at h
    · exact Option.noConfusion h
    obtain ⟨la, ks⟩ := lk
    simp only [Option.some.injEq] at h
    rw [← h]
  refine ⟨⟨?_, ?_⟩, ?_, ?_, ?_⟩
  · rw [hai]
    rfl
  · intro row hrow
    rw [hai] at hrow
    obtain ⟨r, _, hr⟩ := List.mem_map.mp hrow
    rw [← hr]
    rfl
  · intro ri fi r f row cell h1 h2 h3 h4
    rw [hai] at h3
    unfold annanInfoGrid at h3
    rw [List.getElem?_map, h1] at h3
    simp only [Option.map_some', Option.some.injEq] at h3
    rw [← h3, List.getElem?_map, h2] at h4
    simp only [Option.map_some', Option.some.injEq] at h4
    exact h4.symm
  · exact annanCell_isSome effQ g.state.board
  · exact annanCell_none_of_fail effQ g.state.board

/-- C8: the legal-move token list of the payload is the serialized engine
enumeration when the session result is ongoing, and empty for every terminal
result value. -/
theorem legal_moves_only_ongoing (effQ : EffQuery) (toSfen : Move → String)
    (aiE : Bool) (aiC : Option String) (g : Game) (sj : StateJson)
    (h : game_state_to_json effQ toSfen aiE aiC g = some sj) :
    (g.result = "ONGOING" → sj.legal_moves = g.legalMoves.map toSfen) ∧
    (g.result ≠ "ONGOING" → sj.legal_moves = []) := by
  have hlm : sj.legal_moves = legal_moves_payload toSfen g := by
    unfold game_state_to_json at h
    rcases hg : generate_kif_and_log g.history with _ | lk <;> rw [hg] at h
    · exact Option.noConfusion h
    obtain ⟨la, ks⟩ := lk
    simp only [Option.some.injEq] at h
    rw [← h]
  constructor
  · intro hres
    rw [hlm]
    unfold legal_moves_payload
    rw [if_pos hres]
  · intro hres
    rw [hlm]
    unfold legal_moves_payload
    rw [if_neg hres]

/-! Coordinate formatter bounds (claim C6).  The tables have the empty string
at index 0, so rank 0 of the [0,8] rank domain is rendered without a rank
glyph; every file in [1,9] and every rank in [1,8] gets a non-empty glyph. -/

/-- Counterexample to C6 as stated: not every rank value in [0,8] maps to a
non-empty kanji numeral glyph, because rank 0 maps to the empty placeholder
at table index 0. -/
theorem coordinate_glyphs_cex : ¬ (∀ r : Nat, r ≤ 8 → kanjiNum r ≠ "") :=
  fun h => h 0 (by decide) rfl

/-- C6 amended: every file in [1,9] maps to a non-empty full-width digit
glyph and every rank in [1,8] maps to a non-empty kanji numeral glyph, while
rank 0 is rendered as the empty string. -/
theorem coordinate_glyphs_amended :
    (∀ f : Nat, 1 ≤ f → f ≤ 9 → zenkaku f ≠ "") ∧
    (∀ r : Nat, 1 ≤ r → r ≤ 8 → kanjiNum r ≠ "") ∧ kanjiNum 0 = "" := by
  refine ⟨?_, ?_, rfl⟩
  · intro f h1 h2
    interval_cases f <;> decide
  · intro r h1 h2
    interval_cases r <;> decide

theorem coordinate_glyphs_witness : zenkaku 7 ≠ "" ∧ kanjiNum 6 ≠ "" :=
  ⟨coordinate_glyphs_amended.1 7 (by decide) (by decide),
   coordinate_glyphs_amended.2.1 6 (by decide) (by decide)⟩

/-! Session controller handlers (AnnanHandler.do_POST, server.py lines 200
to 256).  The module-level ai_player global is modelled as an optional
selection function; game.apply is an external engine call passed as a
parameter; Game() is the external fresh-session constructor passed as a
parameter. -/

/-- The responses the embedded handlers distinguish: an error JSON with its
HTTP status, the recomputed state snapshot, or the config acknowledgement
carrying the stored AI color. -/
inductive ApiResponse
  | err (msg : String) (status : Nat)
  | stateSnapshot
  | configOk (aiColor : Option String)
deriving DecidableEq, Repr

/-- The api/ai_move handler (server.py lines 241 to 253). -/
def api_ai_move (aiPlayer : Option (GameState → Option Move))
    (applyMove : Game → Move → Game) (g : Game) : ApiResponse × Game :=
  match aiPlayer with
  | none => (ApiResponse.err "AIが有効ではありません" 400, g)
  | some selectMove =>
    if g.result ≠ "ONGOING" then (ApiResponse.err "ゲーム終了済み" 400, g)
    else
      match selectMove g.state with
      | none => (ApiResponse.stateSnapshot, g)
      | some m => (ApiResponse.stateSnapshot, applyMove g m)

/-- C7: requesting an AI move with no agent configured answers the
AI-unavailable error, on a terminal session answers the game-over error, and
when the agent returns no move nothing is applied; in all three cases the
session, and so its move-history length, is returned unchanged. -/
theorem ai_move_guards (applyMove : Game → Move → Game) (g : Game) :
    (api_ai_move none applyMove g =
      (ApiResponse.err "AIが有効ではありません" 400, g)) ∧
    (∀ sel, g.result ≠ "ONGOING" → api_ai_move (some sel) applyMove g =
      (ApiResponse.err "ゲーム終了済み" 400, g)) ∧
    (∀ sel, g.result = "ONGOING" → sel g.state = none →
      api_ai_move (some sel) applyMove g = (ApiResponse.stateSnapshot, g)) := by
  refine ⟨rfl, ?_, ?_⟩
  · intro sel hres
    show (if g.result ≠ "ONGOING" then (ApiResponse.err "ゲーム終了済み" 400, g)
          else match sel g.state with
            | none => (ApiResponse.stateSnapshot, g)
            | some m => (ApiResponse.stateSnapshot, applyMove g m)) =
        (ApiResponse.err "ゲーム終了済み" 400, g)
    rw [if_pos hres]
  · intro sel hres hsel
    show (if g.result ≠ "ONGOING" then (ApiResponse.err "ゲーム終了済み" 400, g)
          else match sel g.state with
            | none => (ApiResponse.stateSnapshot, g)
            | some m => (ApiResponse.stateSnapshot, applyMove g m)) =
        (ApiResponse.stateSnapshot, g)
    rw [if_neg (by simp [hres]), hsel]

/-- An empty board with Black to move, used to build concrete sessions. -/
def emptyBoardState : GameState := ⟨fun _ => none, Color.BLACK⟩

/-- A concrete ongoing session. -/
def gOngoing : Game :=
  { state := emptyBoardState, result := "ONGOING", legalMoves := [],
    history := [] }

/-- A concrete terminal session. -/
def gDone : Game :=
  { state := emptyBoardState, result := "BLACK_WIN", legalMoves := [],
    history := [] }

theorem ai_move_guards_witness :
    api_ai_move none (fun g _ => g) gDone =
      (ApiResponse.err "AIが有効ではありません" 400, gDone) ∧
    api_ai_move (some (fun _ => some (Move.drop (Square.mk 5 5)
        PieceType.KI))) (fun g _ => g) gDone =
      (ApiResponse.err "ゲーム終了済み" 400, gDone) ∧
    api_ai_move (some (fun _ => none)) (fun g _ => g) gOngoing =
      (ApiResponse.stateSnapshot, gOngoing) :=
  ⟨(ai_move_guards (fun g _ => g) gDone).1,
   (ai_move_guards (fun g _ => g) gDone).2.1 _ (by decide),
   (ai_move_guards (fun g _ => g) gOngoing).2.2 _ rfl rfl⟩

/-- The process-wide server state: the single game session plus the
ai_color global. -/
structure ServerState where
  game : Game
  aiColor : Option String

/-- The api/reset handler (server.py lines 225 to 227): the session is
replaced by a freshly constructed engine game; nothing else is touched. -/
def api_reset (initGame : Game) (s : ServerState) :
    ServerState × ApiResponse :=
  ({ s with game := initGame }, ApiResponse.stateSnapshot)

/-- C9: reset installs the fresh session and leaves the AI side assignment
exactly as it was, whatever its value. -/
theorem reset_preserves_ai_color (initGame : Game) (s : ServerState) :
    (api_reset initGame s).1.game = initGame ∧
    (api_reset initGame s).1.aiColor = s.aiColor :=
  ⟨rfl, rfl⟩

/-- The api/config handler (server.py lines 229 to 239). -/
def api_config (aiMode : Option String) (s : ServerState) :
    ServerState × ApiResponse :=
  if aiMode = some "black" then
    ({ s with aiColor := some "BLACK" }, ApiResponse.configOk (some "BLACK"))
  else if aiMode = some "white" then
    ({ s with aiColor := some "WHITE" }, ApiResponse.configOk (some "WHITE"))
  else
    ({ s with aiColor := none }, ApiResponse.configOk none)

/-- C10: configure always succeeds, answering the ok acknowledgement with
the stored assignment; ai_mode black and white select the respective sides
and every other input, a missing field included, clears the assignment. -/
theorem config_never_fails (aiMode : Option String) (s : ServerState) :
    ((api_config aiMode s).2 =
      ApiResponse.configOk ((api_config aiMode s).1.aiColor)) ∧
    (aiMode = some "black" →
      (api_config aiMode s).1.aiColor = some "BLACK") ∧
    (aiMode = some "white" →
      (api_config aiMode s).1.aiColor = some "WHITE") ∧
    (aiMode ≠ some "black" → aiMode ≠ some "white" →
      (api_config aiMode s).1.aiColor = none) := by
  by_cases hb : aiMode = some "black"
  · refine ⟨?_, fun _ => ?_, fun hw => ?_, fun hnb _ => ?_⟩
    · simp [api_config, hb]
    · simp [api_config, hb]
    · rw [hb] at hw
      exact absurd hw (by decide)
    · exact absurd hb hnb
  · by_cases hw : aiMode = some "white"
    · refine ⟨?_, fun hb2 => ?_, fun _ => ?_, fun _ hnw => ?_⟩
      · simp [api_config, hb, hw]
      · exact absurd hb2 hb
      · simp [api_config, hb, hw]
      · exact absurd hw hnw
    · refine ⟨?_, fun hb2 => ?_, fun hw2 => ?_, fun _ _ => ?_⟩
      · simp [api_config, hb, hw]
      · exact absurd hb2 hb
      · exact absurd hw2 hw
      · simp [api_config, hb, hw]

/-- A concrete server state holding an assignment, to show configure
overwrites it. -/
def serverW : ServerState := { game := gOngoing, aiColor := some "BLACK" }

theorem config_never_fails_witness :
    (api_config (some "black") serverW).1.aiColor = some "BLACK" ∧
    (api_config (some "white") serverW).1.aiColor = some "WHITE" ∧
    (api_config (some "bogus") serverW).1.aiColor = none ∧
    (api_config none serverW).1.aiColor = none :=
  ⟨(config_never_fails (some "black") serverW).2.1 rfl,
   (config_never_fails (some "white") serverW).2.2.1 rfl,
   (config_never_fails (some "bogus") serverW).2.2.2 (by decide) (by decide),
   (config_never_fails none serverW).2.2.2 (by decide) (by decide)⟩

/-! Concrete projection instances. -/

/-- A board holding one Black pawn on square (5,4). -/
def boardW4 : Square → Option Piece :=
  fun sq => if sq = Square.mk 5 4 then some ⟨PieceType.FU, Color.BLACK⟩
            else none

/-- A session over boardW4 with empty history. -/
def gW4 : Game :=
  { state := ⟨boardW4, Color.BLACK⟩, result := "ONGOING", legalMoves := [],
    history := [] }

/-- An effective-type query reporting gold movement for the pawn square. -/
def effQW4 : EffQuery :=
  fun _ sq _ => if sq = Square.mk 5 4 then some PieceType.KI else none

/-- An effective-type query that fails everywhere. -/
def effQnone : EffQuery := fun _ _ _ => none

/-- A placeholder move serializer standing in for the engine to_sfen call. -/
def toSfenW : Move → String := fun _ => "tok"

/-- The board projection row for rank 4 of boardW4 (file 5 sits at index 4
of the descending file traversal). -/
def rowB4 : List (Option BoardCell) :=
  [none, none, none, none, some ⟨"FU", "歩", "BLACK"⟩, none, none, none, none]

/-- The annan override row for rank 4 of boardW4 under effQW4. -/
def rowA4 : List (Option AnnanCell) :=
  [none, none, none, none, some ⟨"KI", "金"⟩, none, none, none, none]

/-- The payload for gW4 under effQW4. -/
def sjW4 : StateJson :=
  { board := List.replicate 4 (List.replicate 9 none) ++ [rowB4]
      ++ List.replicate 4 (List.replicate 9 none),
    annan_info := List.replicate 4 (List.replicate 9 none) ++ [rowA4]
      ++ List.replicate 4 (List.replicate 9 none),
    legal_moves := [],
    result := "ONGOING",
    ai_enabled := false,
    ai_color := none,
    log := [],
    kif := joinLines kifHeader }

/-- The payload for gW4 under the always-failing query. -/
def sjW4b : StateJson :=
  { board := List.replicate 4 (List.replicate 9 none) ++ [rowB4]
      ++ List.replicate 4 (List.replicate 9 none),
    annan_info := List.replicate 9 (List.replicate 9 none),
    legal_moves := [],
    result := "ONGOING",
    ai_enabled := false,
    ai_color := none,
    log := [],
    kif := joinLines kifHeader }

theorem annan_projection_witness :
    sjW4.annan_info.length = 9 ∧
    some (AnnanCell.mk "KI" "金") =
      annanCell effQW4 gW4.state.board (Square.mk 5 4) ∧
    ((annanCell effQW4 gW4.state.board (Square.mk 5 4)).isSome ↔
      ∃ p, gW4.state.board (Square.mk 5 4) = some p ∧
        p.piece_type ≠ PieceType.OU ∧
        ∃ e2, effQW4 gW4.state.board (Square.mk 5 4) p.color = some e2 ∧
          e2 ≠ p.piece_type) ∧
    annanCell effQnone gW4.state.board (Square.mk 5 4) = none :=
  ⟨(annan_projection effQW4 toSfenW false none gW4 sjW4 (by decide)).1.1,
   (annan_projection effQW4 toSfenW false none gW4 sjW4 (by decide)).2.1
     4 4 4 5 rowA4 (some (AnnanCell.mk "KI" "金"))
     (by decide) (by decide) (by decide) (by decide),
   (annan_projection effQW4 toSfenW false none gW4 sjW4
     (by decide)).2.2.1 (Square.mk 5 4),
   (annan_projection effQnone toSfenW false none gW4 sjW4b
     (by decide)).2.2.2 (Square.mk 5 4) ⟨PieceType.FU, Color.BLACK⟩ rfl rfl⟩

/-- An ongoing session advertising one legal move. -/
def gW8 : Game :=
  { state := emptyBoardState, result := "ONGOING",
    legalMoves := [Move.drop (Square.mk 5 5) PieceType.KI], history := [] }

/-- The same session after a terminal result. -/
def gW8t : Game :=
  { state := emptyBoardState, result := "DRAW",
    legalMoves := [Move.drop (Square.mk 5 5) PieceType.KI], history := [] }

/-- The payload for gW8. -/
def sjW8 : StateJson :=
  { board := List.replicate 9 (List.replicate 9 none),
    annan_info := List.replicate 9 (List.replicate 9 none),
    legal_moves := ["tok"],
    result := "ONGOING",
    ai_enabled := false,
    ai_color := none,
    log := [],
    kif := joinLines kifHeader }

/-- The payload for gW8t: same session data, but no legal moves exposed. -/
def sjW8t : StateJson :=
  { board := List.replicate 9 (List.replicate 9 none),
    annan_info := List.replicate 9 (List.replicate 9 none),
    legal_moves := [],
    result := "DRAW",
    ai_enabled := false,
    ai_color := none,
    log := [],
    kif := joinLines kifHeader }

theorem legal_moves_only_ongoing_witness :
    sjW8.legal_moves =
      [Move.drop (Square.mk 5 5) PieceType.KI].map toSfenW ∧
    sjW8t.legal_moves = [] :=
  ⟨(legal_moves_only_ongoing effQnone toSfenW false none gW8 sjW8
      (by decide)).1 rfl,
   (legal_moves_only_ongoing effQnone toSfenW false none gW8t sjW8t
      (by decide)).2 (by decide)⟩

end AnnanWeb
